import Mathlib

/-!
Shallow embedding of the Kickbase bidding bot (src/bot.py) and proofs of the
specification claims about it.

Modelling conventions:
* Python ints are `Int`; Python floats are modelled as exact rationals `ℚ`
  (the float expressions in the source never come close to the rounding
  boundaries exercised by the claims).
* Missing/None attributes are `Option` fields; the source's
  `getattr(x, f, d) or d` defaulting is made explicit at each use site.
* Wall-clock time: `datetime.now(timezone.utc)` is a parameter `now : ℚ`
  (a Unix timestamp in seconds), constant over a single run.
* Network nondeterminism (whether an offer POST succeeds) is an explicit
  oracle: each processed player is paired with a `Bool` saying whether the
  submission would raise `KickbaseException`.
* Exceptions that abort a step are `Option`/explicit result constructors;
  logging is not modelled.
-/

/-- KONFIG constant `DRY_RUN` (bot.py line 20): when true the bot only logs
what it would bid.  The run loop below is parameterised by this flag. -/
def DRY_RUN : Bool := false

/-- KONFIG constant `MAX_EXPIRY_WINDOW_SECONDS = 2 * 60 * 60` (bot.py line 23). -/
def MAX_EXPIRY_WINDOW_SECONDS : ℚ := 2 * 60 * 60

/-- KONFIG constant `MIN_CASH_BUFFER = 500_000` (bot.py line 26). -/
def MIN_CASH_BUFFER : Int := 500000

/-- KONFIG constant `MAX_OVERPAY_PCT = 0.10` (bot.py line 29), as an exact
rational. -/
def MAX_OVERPAY_PCT : ℚ := 1/10

/-- Python `int(q)` on a numeric value: truncation toward zero. -/
def pyInt (q : ℚ) : Int := if 0 ≤ q then ⌊q⌋ else ⌈q⌉

/-- Embedding of the timestamp arithmetic of `expiry_to_datetime` (bot.py
lines 268-276): interprets the raw expiry as a Unix timestamp, in
milliseconds when it exceeds 10^12 and in seconds otherwise.  The resulting
datetime is represented as a timestamp in seconds.  This total function is
the value `datetime.fromtimestamp` returns when the timestamp is inside the
datetime-representable range; the raise for out-of-range timestamps is
modelled separately by `expiry_to_datetime_checked` below. -/
def expiry_to_datetime (expiry_raw : Int) : ℚ :=
  if expiry_raw > 10^12 then (expiry_raw : ℚ) / 1000 else (expiry_raw : ℚ)

/-- Embedding of `seconds_until_expiry` (bot.py lines 279-282), with the
current wall-clock time passed explicitly. -/
def seconds_until_expiry (now : ℚ) (expiry_raw : Int) : ℚ :=
  expiry_to_datetime expiry_raw - now

/-- The Unix timestamps `datetime.fromtimestamp` can represent (years 1 to
9999): 0001-01-01T00:00:00 UTC is -62135596800 and
9999-12-31T23:59:59.999999 UTC is just below 253402300800.  Outside this
range `fromtimestamp` raises (ValueError, year out of range). -/
def fromtimestamp_in_range (t : ℚ) : Prop :=
  -62135596800 ≤ t ∧ t < 253402300800

instance (t : ℚ) : Decidable (fromtimestamp_in_range t) :=
  inferInstanceAs (Decidable (_ ∧ _))

/-- Error-aware embedding of `expiry_to_datetime` (bot.py lines 268-276):
`none` is the exception `datetime.fromtimestamp` raises when the timestamp
falls outside the representable range. -/
def expiry_to_datetime_checked (expiry_raw : Int) : Option ℚ :=
  if fromtimestamp_in_range (expiry_to_datetime expiry_raw) then
    some (expiry_to_datetime expiry_raw)
  else none

/-- Error-aware embedding of `seconds_until_expiry` (bot.py lines 279-282):
propagates the `expiry_to_datetime` exception. -/
def seconds_until_expiry_checked (now : ℚ) (expiry_raw : Int) : Option ℚ :=
  (expiry_to_datetime_checked expiry_raw).map (fun exp => exp - now)

/-- The attributes of a market player that the bot reads.  `none` stands for
a missing attribute or a Python `None` value.  Fields that are only ever
logged (names, etc.) are not modelled. -/
structure Player where
  market_value : Option Int
  market_value_trend : Option Int
  mvt : Option Int
  expiry : Int
  id : Option String
  i : Option String
deriving DecidableEq, Repr

/-- The read `mv = getattr(player, "market_value", 0) or 0` (bot.py line
302): a missing or `None` attribute becomes 0. -/
def mv_of (player : Player) : Int := player.market_value.getD 0

/-- The reads at bot.py lines 304-306: `market_value_trend`, falling back to
`getattr(player, "mvt", 0) or 0` only when it is `None`. -/
def trend_flag_of (player : Player) : Int :=
  match player.market_value_trend with
  | some t => t
  | none => player.mvt.getD 0

/-- Embedding of `decide_bid_smart` (bot.py lines 290-342).  Returns `some
bid` when the bot decides to bid, `none` for "no bid".  Python's
`int(mv * (1 + MAX_OVERPAY_PCT))` is `pyInt` of the exact rational product. -/
def decide_bid_smart (player : Player) (me_budget : Int) (now : ℚ) : Option Int :=
  let mv : Int := mv_of player
  let trend_flag : Int := trend_flag_of player
  if mv ≤ 0 then none
  else if me_budget ≤ MIN_CASH_BUFFER then none
  else
    let secs_left : ℚ := seconds_until_expiry now player.expiry
    if secs_left < 0 then none
    else if secs_left > MAX_EXPIRY_WINDOW_SECONDS then none
    else if trend_flag ≤ 0 then none
    else
      let increment : Int := max 1 trend_flag
      let bid1 : Int := mv + increment
      let max_allowed : Int := pyInt ((mv : ℚ) * (1 + MAX_OVERPAY_PCT))
      let bid2 : Int := min bid1 max_allowed
      let bid3 : Int := max bid2 mv
      if me_budget - bid3 < MIN_CASH_BUFFER then none
      else some bid3

/-- Error-aware embedding of `decide_bid_smart` (bot.py lines 290-342): the
same pipeline as `decide_bid_smart`, with the exception raised by
`datetime.fromtimestamp` inside `seconds_until_expiry` (bot.py line 316)
made explicit.  `Except.error` is the uncaught Python exception aborting the
call, `Except.ok none` is an ordinary "no bid".  Note the conversion runs
after the market-value and budget guards but before the window and trend
checks, exactly as in the source. -/
def decide_bid_smart_e (player : Player) (me_budget : Int) (now : ℚ) :
    Except String (Option Int) :=
  let mv : Int := mv_of player
  let trend_flag : Int := trend_flag_of player
  if mv ≤ 0 then Except.ok none
  else if me_budget ≤ MIN_CASH_BUFFER then Except.ok none
  else
    match seconds_until_expiry_checked now player.expiry with
    | none => Except.error "ValueError: year out of range"
    | some secs_left =>
      if secs_left < 0 then Except.ok none
      else if secs_left > MAX_EXPIRY_WINDOW_SECONDS then Except.ok none
      else if trend_flag ≤ 0 then Except.ok none
      else
        let increment : Int := max 1 trend_flag
        let bid1 : Int := mv + increment
        let max_allowed : Int := pyInt ((mv : ℚ) * (1 + MAX_OVERPAY_PCT))
        let bid2 : Int := min bid1 max_allowed
        let bid3 : Int := max bid2 mv
        if me_budget - bid3 < MIN_CASH_BUFFER then Except.ok none
        else Except.ok (some bid3)

/-- Outcome of one `make_offer_v4` call, as seen by the caller: the API
returned a success status, or a `KickbaseException` was raised carrying the
failing status. -/
inductive OfferResult where
  | accepted
  | failed (status : Nat)
deriving DecidableEq, Repr

/-- Embedding of `make_offer_v4` (bot.py lines 207-253).  The method builds
one POST request to the single v4 offer endpoint and inspects its response
status: 200/201 mean success, every other status raises.  `responses` lists
the statuses that successive HTTP requests would receive; the second
component counts how many requests the method actually issues (always 1 -
there is no list of alternative endpoint templates in the code).  The empty
list is unreachable, since every issued request yields a status. -/
def make_offer_v4 (responses : List Nat) : OfferResult × Nat :=
  match responses with
  | [] => (OfferResult.failed 0, 0)
  | status :: _ =>
    if status = 200 ∨ status = 201 then (OfferResult.accepted, 1)
    else (OfferResult.failed status, 1)

/-- Python truthiness of an optional string: `None` and `""` are falsy. -/
def truthyStr : Option String → Option String
  | some s => if s = "" then none else some s
  | none => none

/-- Embedding of `player_id = getattr(p, "id", None) or getattr(p, "i", None)`
followed by the `if not player_id` check (bot.py lines 455-458): the id the
loop uses, or `none` when both attributes are falsy and the player is
skipped. -/
def player_id (p : Player) : Option String :=
  match truthyStr p.id with
  | some s => some s
  | none => truthyStr p.i

/-- What happened to one player in the `run_bot_once` loop (bot.py lines
427-481): filtered out or no bid decided (`skipped`), decision logged only
because of `DRY_RUN` (`dryLogged`), offer sent and confirmed (`accepted`,
budget decremented), or offer sent and the request raised (`failed`, budget
untouched). -/
inductive StepResult where
  | skipped
  | dryLogged (bid : Int)
  | accepted (bid : Int)
  | failed (bid : Int)
deriving DecidableEq, Repr

/-- One iteration of the `for p in players_sorted` loop of `run_bot_once`
(bot.py lines 427-481), acting on the tracked budget.  `ok` is the
submission oracle: whether `make_offer_v4` would succeed for this player.
Returns the budget after the iteration and what happened. -/
def step (dry : Bool) (now : ℚ) (budget : Int) (p : Player) (ok : Bool) :
    Int × StepResult :=
  let secs_left : ℚ := seconds_until_expiry now p.expiry
  if secs_left < 0 ∨ secs_left > MAX_EXPIRY_WINDOW_SECONDS then
    (budget, StepResult.skipped)
  else
    match decide_bid_smart p budget now with
    | none => (budget, StepResult.skipped)
    | some bid =>
      match player_id p with
      | none => (budget, StepResult.skipped)
      | some _ =>
        if dry then (budget, StepResult.dryLogged bid)
        else if ok then (budget - bid, StepResult.accepted bid)
        else (budget, StepResult.failed bid)

/-- The whole candidate loop of `run_bot_once` (bot.py lines 427-481): folds
`step` over the (already sorted) players, each paired with its submission
oracle, recording after each iteration the tracked budget and the outcome. -/
def runTrace (dry : Bool) (now : ℚ) : Int → List (Player × Bool) →
    List (Int × StepResult)
  | _, [] => []
  | budget, (p, ok) :: rest =>
    let s := step dry now budget p ok
    s :: runTrace dry now s.1 rest

/-- The bid amounts of the confirmed (accepted) offers in a trace, in order. -/
def acceptedBids : List (Int × StepResult) → List Int
  | [] => []
  | (_, StepResult.accepted bid) :: rest => bid :: acceptedBids rest
  | _ :: rest => acceptedBids rest

/-- The sort key relation of `players_sorted = sorted(players, key=lambda p:
expiry_to_datetime(p.expiry))` (bot.py line 425). -/
def expiryLE (p q : Player) : Prop :=
  expiry_to_datetime p.expiry ≤ expiry_to_datetime q.expiry

instance : DecidableRel expiryLE := fun p q =>
  inferInstanceAs (Decidable (expiry_to_datetime p.expiry ≤ expiry_to_datetime q.expiry))

instance : IsTotal Player expiryLE := ⟨fun _ _ => le_total _ _⟩

instance : IsTrans Player expiryLE := ⟨fun _ _ _ h h2 => le_trans h h2⟩

instance : IsRefl Player expiryLE := ⟨fun _ => le_refl _⟩

/-- Embedding of `players_sorted = sorted(players, key=...)` (bot.py line
425).  Python's `sorted` is a stable ascending sort; it is modelled by
insertion sort on the same key, which is stable. -/
def players_sorted (players : List Player) : List Player :=
  List.insertionSort expiryLE players

/-- A JSON value as far as the bot inspects one (the budget field `b` of the
league-me response): absent fields are `Option.none` at the use site; a
present field is null, an integer, or a string. -/
inductive JsonVal where
  | null
  | jint (n : Int)
  | jstr (s : String)
deriving DecidableEq, Repr

/-- Python `int(x)` on a JSON value: succeeds on integers and on strings
that parse as an integer, raises `TypeError`/`ValueError` (here `none`)
otherwise.  `String.toInt?` accepts an optional minus sign followed by
digits, a subset of the string forms Python's `int()` accepts (which also
tolerates surrounding whitespace, a plus sign and digit underscores); the
decorated convertible strings in that difference are outside the
non-convertible class the claims are about. -/
def pyIntOfJson : JsonVal → Option Int
  | JsonVal.jint n => some n
  | JsonVal.jstr s => s.toInt?
  | JsonVal.null => none

/-- Embedding of the budget extraction in `run_bot_once` (bot.py lines
404-408): `budget_raw = me_json.get("b", 0)` then `int(budget_raw)` with the
exception handler defaulting to 0.  `b_field` is the `b` entry of the
response, `none` when absent. -/
def budget_from_me_json (b_field : Option JsonVal) : Int :=
  match b_field with
  | none => 0
  | some v => (pyIntOfJson v).getD 0

/-- The fields of a league the bot reads.  Ids are kept as the strings the
code compares with `str(l.id) == str(league_id_pref)`. -/
structure LeagueData where
  id : String
  name : String
deriving DecidableEq, Repr

/-- Embedding of the league selection in `run_bot_once` (bot.py lines
378-393): abort (`none`) when the login returned no leagues; otherwise, with
a truthy preferred id, `next((l for l in leagues if str(l.id) ==
str(league_id_pref)), leagues[0])`; without one, `leagues[0]`. -/
def chooseLeague (league_id_pref : Option String) :
    List LeagueData → Option LeagueData
  | [] => none
  | l0 :: rest =>
    match truthyStr league_id_pref with
    | none => some l0
    | some pid => some (((l0 :: rest).find? (fun l => l.id = pid)).getD l0)

theorem pyInt_of_nonneg {q : ℚ} (h : 0 ≤ q) : pyInt q = ⌊q⌋ := by
  simp [pyInt, h]

theorem cap_bounds {mv : Int} (h : 0 < mv) :
    pyInt ((mv : ℚ) * (1 + MAX_OVERPAY_PCT)) = ⌊(mv : ℚ) * (1 + MAX_OVERPAY_PCT)⌋ ∧
      mv ≤ ⌊(mv : ℚ) * (1 + MAX_OVERPAY_PCT)⌋ := by
  have hm : (0:ℚ) ≤ (mv : ℚ) := by exact_mod_cast h.le
  have hq : (0:ℚ) ≤ (mv : ℚ) * (1 + MAX_OVERPAY_PCT) := by
    rw [MAX_OVERPAY_PCT]; nlinarith
  refine ⟨pyInt_of_nonneg hq, ?_⟩
  rw [Int.le_floor, MAX_OVERPAY_PCT]
  nlinarith

theorem bid_bounds_of_some {p : Player} {b bid : Int} {now : ℚ}
    (h : decide_bid_smart p b now = some bid) :
    0 < mv_of p ∧ mv_of p ≤ bid ∧
      bid ≤ ⌊(mv_of p : ℚ) * (1 + MAX_OVERPAY_PCT)⌋ ∧ MIN_CASH_BUFFER ≤ b - bid := by
  simp only [decide_bid_smart] at h
  split at h
  · exact absurd h (by simp)
  split at h
  · exact absurd h (by simp)
  split at h
  · exact absurd h (by simp)
  split at h
  · exact absurd h (by simp)
  split at h
  · exact absurd h (by simp)
  split at h
  · exact absurd h (by simp)
  rw [Option.some_inj] at h
  subst h
  rename_i hmv hbud hneg hwin htrend hbuf
  have hmv' : 0 < mv_of p := lt_of_not_le hmv
  obtain ⟨hc1, hc2⟩ := cap_bounds hmv'
  refine ⟨hmv', le_max_right _ _, ?_, not_lt.mp hbuf⟩
  exact max_le ((min_le_right _ _).trans (le_of_eq hc1)) hc2

/-- The market player of the spec's worked scenario: `mv = 1_000_000`,
`mvt = 2`, expiring 1800 seconds after the epoch (so 1800 seconds remain at
`now = 0`), with a player id present. -/
def scenarioPlayer : Player :=
  { market_value := some 1000000
    market_value_trend := some 2
    mvt := none
    expiry := 1800
    id := some "42"
    i := none }

/-- C3: whenever `decide_bid_smart` returns a bid, the bid lies between the
listing's market value and the floor of `marketValue * (1 +
MAX_OVERPAY_PCT)` (the cap is computed on exact numbers and truncated
downward, never rounded up). -/
theorem bid_between_mv_and_cap (p : Player) (b bid : Int) (now : ℚ)
    (h : decide_bid_smart p b now = some bid) :
    mv_of p ≤ bid ∧ bid ≤ ⌊(mv_of p : ℚ) * (1 + MAX_OVERPAY_PCT)⌋ :=
  ⟨(bid_bounds_of_some h).2.1, (bid_bounds_of_some h).2.2.1⟩

/-- Witness for C3 at the spec scenario: the computed bid 1_000_002 lies
between the market value 1_000_000 and the cap. -/
theorem bid_between_mv_and_cap_witness :
    mv_of scenarioPlayer ≤ 1000002 ∧
      1000002 ≤ ⌊(mv_of scenarioPlayer : ℚ) * (1 + MAX_OVERPAY_PCT)⌋ :=
  bid_between_mv_and_cap scenarioPlayer 2000000 1000002 0 (by
    norm_num [decide_bid_smart, mv_of, trend_flag_of, seconds_until_expiry,
      expiry_to_datetime, pyInt, MIN_CASH_BUFFER, MAX_OVERPAY_PCT,
      MAX_EXPIRY_WINDOW_SECONDS, scenarioPlayer])

/-- C4: on the spec's concrete scenario (market value 1_000_000, trend flag
2, 1800 seconds remaining, budget 2_000_000) the bid calculator returns
exactly 1_000_002; the overpay cap evaluates to 1_100_000 (not triggered)
and the cash-buffer check passes. -/
theorem scenario_bid_1000002 :
    decide_bid_smart scenarioPlayer 2000000 0 = some 1000002 ∧
      pyInt ((mv_of scenarioPlayer : ℚ) * (1 + MAX_OVERPAY_PCT)) = 1100000 ∧
      MIN_CASH_BUFFER ≤ 2000000 - 1000002 := by
  refine ⟨?_, ?_, ?_⟩ <;>
    norm_num [decide_bid_smart, mv_of, trend_flag_of, seconds_until_expiry,
      expiry_to_datetime, pyInt, MIN_CASH_BUFFER, MAX_OVERPAY_PCT,
      MAX_EXPIRY_WINDOW_SECONDS, scenarioPlayer]

theorem step_cases (dry : Bool) (now : ℚ) (b : Int) (p : Player) (ok : Bool) :
    (∃ bid, step dry now b p ok = (b - bid, StepResult.accepted bid) ∧
        decide_bid_smart p b now = some bid) ∨
      (∃ r, step dry now b p ok = (b, r) ∧
        ∀ bid, r ≠ StepResult.accepted bid) := by
  simp only [step]
  split
  · right; exact ⟨_, rfl, by simp⟩
  · rcases hd : decide_bid_smart p b now with _ | bid
    · right; exact ⟨_, rfl, by simp⟩
    · rcases hpid : player_id p with _ | s
      · right; exact ⟨_, rfl, by simp⟩
      · cases dry
        · cases ok
          · right; exact ⟨_, rfl, by simp⟩
          · left; exact ⟨bid, rfl, rfl⟩
        · right; exact ⟨_, rfl, by simp⟩

theorem step_dry (now : ℚ) (b : Int) (p : Player) (ok : Bool) :
    (step true now b p ok).1 = b ∧
      ((step true now b p ok).2 = StepResult.skipped ∨
        ∃ bid, (step true now b p ok).2 = StepResult.dryLogged bid) := by
  simp only [step]
  split
  · simp
  · rcases hd : decide_bid_smart p b now with _ | bid
    · simp
    · rcases hpid : player_id p with _ | s
      · simp
      · simp

theorem runTrace_buffer_after_accept (dry : Bool) (now : ℚ) :
    ∀ (ps : List (Player × Bool)) (b0 : Int),
      ∀ e ∈ runTrace dry now b0 ps,
        (∃ bid, e.2 = StepResult.accepted bid) → MIN_CASH_BUFFER ≤ e.1 := by
  intro ps
  induction ps with
  | nil => intro b0 e he; simp [runTrace] at he
  | cons pair rest ih =>
    intro b0 e he hacc
    obtain ⟨p, ok⟩ := pair
    simp only [runTrace, List.mem_cons] at he
    rcases he with rfl | he
    · obtain ⟨bid, hbid⟩ := hacc
      rcases step_cases dry now b0 p ok with ⟨bid2, he2, hdec⟩ | ⟨r, hs, h2⟩
      · rw [he2]
        simpa using (bid_bounds_of_some hdec).2.2.2
      · rw [hs] at hbid
        exact absurd hbid (h2 bid)
    · exact ih _ e he hacc

theorem runTrace_sum (dry : Bool) (now : ℚ) :
    ∀ (ps : List (Player × Bool)) (b0 : Int),
      acceptedBids (runTrace dry now b0 ps) ≠ [] →
        MIN_CASH_BUFFER ≤ b0 - (acceptedBids (runTrace dry now b0 ps)).sum := by
  intro ps
  induction ps with
  | nil => intro b0 h; simp [runTrace, acceptedBids] at h
  | cons pair rest ih =>
    intro b0 h
    obtain ⟨p, ok⟩ := pair
    rcases step_cases dry now b0 p ok with ⟨bid, hs, hdec⟩ | ⟨r, hs, hr⟩
    · have hbuf := (bid_bounds_of_some hdec).2.2.2
      simp only [runTrace, hs, acceptedBids, List.sum_cons] at h ⊢
      by_cases hrest : acceptedBids (runTrace dry now (b0 - bid) rest) = []
      · rw [hrest]
        simpa using hbuf
      · have := ih (b0 - bid) hrest
        omega
    · simp only [runTrace, hs] at h ⊢
      cases r with
      | accepted bid => exact absurd rfl (hr bid)
      | skipped =>
        simp only [acceptedBids] at h ⊢
        exact ih b0 h
      | dryLogged bid =>
        simp only [acceptedBids] at h ⊢
        exact ih b0 h
      | failed bid =>
        simp only [acceptedBids] at h ⊢
        exact ih b0 h

/-- C2: along any run of the candidate loop, the tracked budget immediately
after every confirmed offer is at least `MIN_CASH_BUFFER`; equivalently, as
soon as at least one offer is confirmed, the initial budget minus the sum of
all confirmed bid amounts stays at or above `MIN_CASH_BUFFER`. -/
theorem budget_never_below_buffer (dry : Bool) (now : ℚ) (b0 : Int)
    (ps : List (Player × Bool)) :
    (∀ e ∈ runTrace dry now b0 ps,
        (∃ bid, e.2 = StepResult.accepted bid) → MIN_CASH_BUFFER ≤ e.1) ∧
      (acceptedBids (runTrace dry now b0 ps) ≠ [] →
        MIN_CASH_BUFFER ≤ b0 - (acceptedBids (runTrace dry now b0 ps)).sum) :=
  ⟨runTrace_buffer_after_accept dry now ps b0, runTrace_sum dry now ps b0⟩

/-- Witness for C2: the scenario run confirms one offer of 1_000_002 from a
budget of 2_000_000 and the invariant holds. -/
theorem budget_never_below_buffer_witness :
    MIN_CASH_BUFFER ≤ 2000000 -
      (acceptedBids (runTrace false 0 2000000 [(scenarioPlayer, true)])).sum :=
  (budget_never_below_buffer false 0 2000000 [(scenarioPlayer, true)]).2 (by
    norm_num [runTrace, step, acceptedBids, decide_bid_smart, mv_of,
      trend_flag_of, player_id, truthyStr, seconds_until_expiry,
      expiry_to_datetime, pyInt, MIN_CASH_BUFFER, MAX_OVERPAY_PCT,
      MAX_EXPIRY_WINDOW_SECONDS, scenarioPlayer])

/-- C6: when the offer submission for a candidate fails (the request
raises), the tracked budget after processing that candidate equals the
budget before it - a failed bid consumes no budget within the run. -/
theorem failed_offer_releases_budget (dry : Bool) (now : ℚ) (b : Int)
    (p : Player) (ok : Bool) (b2 bid : Int)
    (h : step dry now b p ok = (b2, StepResult.failed bid)) : b2 = b := by
  rcases step_cases dry now b p ok with ⟨bid2, hs, _⟩ | ⟨r, hs, _⟩
  · rw [hs] at h
    injection h with h1 h2
    exact absurd h2 (by simp)
  · rw [hs] at h
    injection h with h1 h2
    exact h1.symm

/-- Witness for C6: the scenario candidate with a failing submission leaves
the budget at 2_000_000. -/
theorem failed_offer_releases_budget_witness : (2000000 : Int) = 2000000 :=
  failed_offer_releases_budget false 0 2000000 scenarioPlayer false 2000000 1000002
    (by
      norm_num [step, decide_bid_smart, mv_of, trend_flag_of, player_id,
        truthyStr, seconds_until_expiry, expiry_to_datetime, pyInt,
        MIN_CASH_BUFFER, MAX_OVERPAY_PCT, MAX_EXPIRY_WINDOW_SECONDS,
        scenarioPlayer]
      rfl)

/-- C8: with the dry-run flag true, every entry of the run trace keeps the
budget at its initial value and no submission outcome (accepted or failed)
ever occurs - each candidate is only skipped or logged hypothetically. -/
theorem dry_run_no_submission (now : ℚ) (b0 : Int) (ps : List (Player × Bool)) :
    ∀ e ∈ runTrace true now b0 ps,
      e.1 = b0 ∧
        (e.2 = StepResult.skipped ∨ ∃ bid, e.2 = StepResult.dryLogged bid) := by
  induction ps generalizing b0 with
  | nil => intro e he; simp [runTrace] at he
  | cons pair rest ih =>
    obtain ⟨p, ok⟩ := pair
    intro e he
    simp only [runTrace, List.mem_cons] at he
    rcases he with rfl | he
    · exact step_dry now b0 p ok
    · have h1 := (step_dry now b0 p ok).1
      rw [h1] at he
      exact ih b0 e he

/-- Witness for C8: a dry run over the scenario candidate only logs the
hypothetical bid and leaves the budget unchanged. -/
theorem dry_run_no_submission_witness :
    ((2000000 : Int), StepResult.dryLogged 1000002).1 = 2000000 ∧
      (((2000000 : Int), StepResult.dryLogged 1000002).2 = StepResult.skipped ∨
        ∃ bid, ((2000000 : Int), StepResult.dryLogged 1000002).2 =
          StepResult.dryLogged bid) :=
  dry_run_no_submission 0 2000000 [(scenarioPlayer, true)]
    (2000000, StepResult.dryLogged 1000002)
    (by
      norm_num [runTrace, step, decide_bid_smart, mv_of, trend_flag_of,
        player_id, truthyStr, seconds_until_expiry, expiry_to_datetime, pyInt,
        MIN_CASH_BUFFER, MAX_OVERPAY_PCT, MAX_EXPIRY_WINDOW_SECONDS,
        scenarioPlayer]
      rfl)

/-- C7: the candidate list is a permutation of the input sorted ascending by
remaining time until expiry, and two listings with equal expiry timestamps
keep their input relative order (the sort is stable). -/
theorem candidates_sorted_stable (players : List Player) (now : ℚ) :
    List.Sorted
        (fun p q => seconds_until_expiry now p.expiry ≤ seconds_until_expiry now q.expiry)
        (players_sorted players) ∧
      List.Perm (players_sorted players) players ∧
      ∀ a b : Player, List.Sublist [a, b] players →
        expiry_to_datetime a.expiry = expiry_to_datetime b.expiry →
        List.Sublist [a, b] (players_sorted players) := by
  have key : ∀ p q : Player, expiryLE p q →
      seconds_until_expiry now p.expiry ≤ seconds_until_expiry now q.expiry := by
    intro p q h
    simp only [seconds_until_expiry]
    exact sub_le_sub_right h now
  refine ⟨?_, List.perm_insertionSort _ _, ?_⟩
  · exact (List.sorted_insertionSort expiryLE players).imp (key _ _)
  · intro a b hsub heq
    exact List.pair_sublist_insertionSort (le_of_eq heq) hsub

/-- A second scenario player, identical except for its id, used to witness
stability of the sort on equal expiry timestamps. -/
def scenarioPlayerB : Player :=
  { scenarioPlayer with id := some "43" }

/-- Witness for C7: two players with equal expiry stay in input order. -/
theorem candidates_sorted_stable_witness :
    List.Sublist [scenarioPlayer, scenarioPlayerB]
      (players_sorted [scenarioPlayer, scenarioPlayerB]) :=
  (candidates_sorted_stable [scenarioPlayer, scenarioPlayerB] 0).2.2
    scenarioPlayer scenarioPlayerB (List.Sublist.refl _) rfl

/-- Counterexample to C1: the code has no ordered list of endpoint
templates.  On a response sequence whose first two statuses are the mismatch
statuses 404/405 and whose third is a success, `make_offer_v4` raises after
exactly 1 request instead of reporting accepted after 3. -/
theorem offer_fallback_counterexample :
    (make_offer_v4 [404, 405, 200]).1 ≠ OfferResult.accepted ∧
      (make_offer_v4 [404, 405, 200]).2 = 1 := by
  decide

/-- C1 (amended): the offer submitter knows a single endpoint; whenever the
first response status is a mismatch status (404 or 405) it stops after
exactly 1 request and reports that failure, with no fallback probing. -/
theorem offer_single_attempt_no_fallback (s1 s2 s3 : Nat)
    (h : s1 = 404 ∨ s1 = 405) :
    (make_offer_v4 [s1, s2, s3]).2 = 1 ∧
      (make_offer_v4 [s1, s2, s3]).1 = OfferResult.failed s1 := by
  rcases h with rfl | rfl <;> simp [make_offer_v4]

/-- Witness for the amended C1 at the sequence 404, 405, 200. -/
theorem offer_single_attempt_no_fallback_witness :
    (make_offer_v4 [404, 405, 200]).2 = 1 ∧
      (make_offer_v4 [404, 405, 200]).1 = OfferResult.failed 404 :=
  offer_single_attempt_no_fallback 404 405 200 (Or.inl rfl)

/-- C9: a missing or non-convertible budget field `b` silently becomes 0
(no malformed-response error), and with budget 0 the bid calculator answers
"no bid" for every listing. -/
theorem missing_budget_defaults_zero_no_bids :
    budget_from_me_json none = 0 ∧
      (∀ v : JsonVal, pyIntOfJson v = none → budget_from_me_json (some v) = 0) ∧
      ∀ (p : Player) (now : ℚ), decide_bid_smart p 0 now = none := by
  refine ⟨rfl, ?_, ?_⟩
  · intro v hv
    simp [budget_from_me_json, hv]
  · intro p now
    have h0 : (0 : Int) ≤ MIN_CASH_BUFFER := by norm_num [MIN_CASH_BUFFER]
    simp [decide_bid_smart, h0]

/-- Witness for C9: the non-numeric budget string "abc" yields budget 0 and
the scenario listing then gets "no bid". -/
theorem missing_budget_defaults_zero_no_bids_witness :
    budget_from_me_json (some JsonVal.null) = 0 ∧
      decide_bid_smart scenarioPlayer 0 0 = none :=
  ⟨missing_budget_defaults_zero_no_bids.2.1 JsonVal.null rfl,
   missing_budget_defaults_zero_no_bids.2.2 scenarioPlayer 0⟩

/-- C10: league selection never aborts on a non-empty league list - a
preferred id matching no league silently falls back to the first league -
and aborts exactly when the list is empty. -/
theorem league_fallback_first (pref : Option String) :
    chooseLeague pref [] = none ∧
      (∀ ls : List LeagueData, ls ≠ [] → (chooseLeague pref ls).isSome = true) ∧
      ∀ (l0 : LeagueData) (rest : List LeagueData),
        (∀ l ∈ l0 :: rest, truthyStr pref ≠ some l.id) →
        chooseLeague pref (l0 :: rest) = some l0 := by
  refine ⟨rfl, ?_, ?_⟩
  · intro ls hls
    cases ls with
    | nil => exact absurd rfl hls
    | cons l0 rest =>
      simp only [chooseLeague]
      cases truthyStr pref <;> simp
  · intro l0 rest hnone
    simp only [chooseLeague]
    rcases ht : truthyStr pref with _ | pid
    · rfl
    · have hfind : (l0 :: rest).find? (fun l => l.id = pid) = none := by
        rw [List.find?_eq_none]
        intro l hl
        have hne := hnone l hl
        rw [ht] at hne
        simp only [ne_eq, Option.some.injEq] at hne
        simp only [decide_eq_true_eq]
        exact fun hcontra => hne hcontra.symm
      show some (((l0 :: rest).find? (fun l => l.id = pid)).getD l0) = some l0
      rw [hfind]
      rfl

/-- Witness for C10: preferred id "9" matches neither league, so the first
league is used. -/
theorem league_fallback_first_witness :
    chooseLeague (some "9") [⟨"1", "A"⟩, ⟨"2", "B"⟩] = some ⟨"1", "A"⟩ :=
  (league_fallback_first (some "9")).2.2 ⟨"1", "A"⟩ [⟨"2", "B"⟩] (by decide)

/-- On any expiry whose timestamp is representable, the error-aware
embedding agrees with the total one: no exception occurs and the same bid
decision is returned. -/
theorem decide_bid_smart_e_agrees (p : Player) (b : Int) (now : ℚ)
    (h : fromtimestamp_in_range (expiry_to_datetime p.expiry)) :
    decide_bid_smart_e p b now = Except.ok (decide_bid_smart p b now) := by
  simp only [decide_bid_smart_e, decide_bid_smart, seconds_until_expiry_checked,
    expiry_to_datetime_checked, if_pos h, Option.map_some', seconds_until_expiry]
  repeat' split
  all_goals rfl

/-- Counterexample to C5: the listing with market value 10, trend flag -1
and expiry 10^12 (a year-33658 timestamp) is in the claim's non-positive
trend class, yet under budget 2_000_000 the calculator reaches
`seconds_until_expiry` before the trend check and `datetime.fromtimestamp`
raises, so the call errors instead of returning "no bid". -/
theorem no_bid_never_raises_counterexample :
    decide_bid_smart_e
        { market_value := some 10, market_value_trend := some (-1), mvt := none,
          expiry := 10^12, id := none, i := none } 2000000 0 =
      Except.error "ValueError: year out of range" ∧
    trend_flag_of
        { market_value := some 10, market_value_trend := some (-1), mvt := none,
          expiry := 10^12, id := none, i := none } ≤ 0 := by
  constructor
  · norm_num [decide_bid_smart_e, seconds_until_expiry_checked,
      expiry_to_datetime_checked, fromtimestamp_in_range, expiry_to_datetime,
      mv_of, trend_flag_of, MIN_CASH_BUFFER]
  · decide

/-- C5 (amended): a listing with non-positive defaulted market value always
gets "no bid" and never an error (the market-value guard precedes the
expiry conversion); a listing with non-positive trend flag gets "no bid"
and never an error provided its expiry timestamp is representable by
`datetime.fromtimestamp` - for an out-of-range expiry the ValueError is
raised before the trend check is reached. -/
theorem no_bid_nonpositive_amended (p : Player) (b : Int) (now : ℚ) :
    (mv_of p ≤ 0 → decide_bid_smart_e p b now = Except.ok none) ∧
      (trend_flag_of p ≤ 0 →
        fromtimestamp_in_range (expiry_to_datetime p.expiry) →
        decide_bid_smart_e p b now = Except.ok none) := by
  constructor
  · intro hmv
    simp [decide_bid_smart_e, hmv]
  · intro ht hrange
    simp only [decide_bid_smart_e, seconds_until_expiry_checked,
      expiry_to_datetime_checked, if_pos hrange, Option.map_some']
    repeat split
    any_goals rfl
    all_goals simp_all

/-- Witness for the amended C5: a zero-market-value listing and a
falling-trend listing with an in-range expiry both get "no bid" without
error. -/
theorem no_bid_nonpositive_amended_witness :
    decide_bid_smart_e
        { market_value := some 0, market_value_trend := some 2, mvt := none,
          expiry := 1800, id := none, i := none } 2000000 0 = Except.ok none ∧
    decide_bid_smart_e
        { market_value := some 10, market_value_trend := some (-1), mvt := none,
          expiry := 1800, id := none, i := none } 2000000 0 = Except.ok none :=
  ⟨(no_bid_nonpositive_amended _ 2000000 0).1 (by decide),
   (no_bid_nonpositive_amended _ 2000000 0).2 (by decide)
     (by norm_num [fromtimestamp_in_range, expiry_to_datetime])⟩
